import Mathlib

/-!
Verification of the physics core of the Tuned-Mass-Damper simulator.

The embedded code is the integrator module of the repository
(src/services/physicsEngine.ts) together with the data model of
src/unnamed/part_003 (types.ts): the record types SystemParams and
SimulationState, the derivative evaluator evaluate, and the fixed-step
4th-order Runge-Kutta integrator integrateRK4.  JavaScript numbers are
embedded as real numbers.
-/

namespace TMD

noncomputable section

/-- Parameters of the coupled two-mass system, field for field the
interface SystemParams of types.ts. -/
structure SystemParams where
  m1 : ℝ
  k1 : ℝ
  b1 : ℝ
  m2 : ℝ
  k2 : ℝ
  b2 : ℝ
  forceAmplitude : ℝ
  forceFrequency : ℝ

/-- The simulation state, field for field the interface SimulationState
of types.ts. -/
structure SimulationState where
  t : ℝ
  x1 : ℝ
  v1 : ℝ
  x2 : ℝ
  v2 : ℝ

/-- The derivative record of physicsEngine.ts. -/
structure Derivative where
  dx1 : ℝ
  dv1 : ℝ
  dx2 : ℝ
  dv2 : ℝ

/-- The external drive force, the inline expression of line 23 of
physicsEngine.ts: amplitude * sin(2 * pi * frequency * t). -/
def force (t amplitude frequency : ℝ) : ℝ :=
  amplitude * Real.sin (2 * Real.pi * frequency * t)

/-- The derivative evaluator of physicsEngine.ts (lines 10 to 44),
translated clause for clause. -/
def evaluate (state : SimulationState) (t : ℝ) (dt : ℝ)
    (d : Derivative) (params : SystemParams) : Derivative :=
  let x1 := state.x1 + d.dx1 * dt
  let v1 := state.v1 + d.dv1 * dt
  let x2 := state.x2 + d.dx2 * dt
  let v2 := state.v2 + d.dv2 * dt
  let Force := params.forceAmplitude *
    Real.sin (2 * Real.pi * params.forceFrequency * t)
  let springForce2 := params.k2 * (x2 - x1)
  let dampingForce2 := params.b2 * (v2 - v1)
  let F_net_1 := -params.k1 * x1 - params.b1 * v1 + springForce2 +
    dampingForce2 + Force
  let F_net_2 := -springForce2 - dampingForce2
  { dx1 := v1
    dv1 := F_net_1 / params.m1
    dx2 := v2
    dv2 := F_net_2 / params.m2 }

/-- The fixed-step RK4 integrator of physicsEngine.ts (lines 46 to 68),
translated clause for clause; 0.5 is written 1 / 2. -/
def integrateRK4 (state : SimulationState) (dt : ℝ)
    (params : SystemParams) : SimulationState :=
  let a := evaluate state state.t 0 ⟨0, 0, 0, 0⟩ params
  let b := evaluate state (state.t + dt * (1 / 2)) (dt * (1 / 2)) a params
  let c := evaluate state (state.t + dt * (1 / 2)) (dt * (1 / 2)) b params
  let d := evaluate state (state.t + dt) dt c params
  let dxdt1 := (1 / 6) * (a.dx1 + 2 * (b.dx1 + c.dx1) + d.dx1)
  let dvdt1 := (1 / 6) * (a.dv1 + 2 * (b.dv1 + c.dv1) + d.dv1)
  let dxdt2 := (1 / 6) * (a.dx2 + 2 * (b.dx2 + c.dx2) + d.dx2)
  let dvdt2 := (1 / 6) * (a.dv2 + 2 * (b.dv2 + c.dv2) + d.dv2)
  { t := state.t + dt
    x1 := state.x1 + dxdt1 * dt
    v1 := state.v1 + dvdt1 * dt
    x2 := state.x2 + dxdt2 * dt
    v2 := state.v2 + dvdt2 * dt }

/-- The total mechanical energy of a state, the expression of the
conservation check of the specification. -/
def energy (p : SystemParams) (s : SimulationState) : ℝ :=
  1 / 2 * p.m1 * s.v1 ^ 2 + 1 / 2 * p.k1 * s.x1 ^ 2 +
    1 / 2 * p.m2 * s.v2 ^ 2 + 1 / 2 * p.k2 * (s.x2 - s.x1) ^ 2

/-- The all-zero initial state of the application driver. -/
def zeroState : SimulationState := ⟨0, 0, 0, 0, 0⟩

/-- A parameter set with unit masses and unit coefficients, used to
instantiate universally quantified theorems. -/
def pUnit : SystemParams := ⟨1, 1, 1, 1, 1, 1, 1, 1⟩

/-- A concrete state used to instantiate universally quantified
theorems. -/
def sProbe : SimulationState := ⟨0, 1, 2, 3, 4⟩

/-- A concrete partial-derivative record used to instantiate
universally quantified theorems. -/
def dProbe : Derivative := ⟨1, 1, 1, 1⟩

/-- Claim C2: one call of integrateRK4 computes exactly the classic RK4
update: four evaluator calls at times t, t+dt/2, t+dt/2, t+dt with
offsets 0, dt/2, dt/2, dt, the first probed with the zero derivative and
each subsequent one with the previous result; the combined derivative of
each component is (k1 + 2 k2 + 2 k3 + k4) / 6, the new time is t + dt and
each component advances by its combined derivative times dt. -/
theorem integrateRK4_classic_rk4 (s : SimulationState) (dt : ℝ)
    (p : SystemParams) :
    integrateRK4 s dt p =
      let k1 := evaluate s s.t 0 ⟨0, 0, 0, 0⟩ p
      let k2 := evaluate s (s.t + dt / 2) (dt / 2) k1 p
      let k3 := evaluate s (s.t + dt / 2) (dt / 2) k2 p
      let k4 := evaluate s (s.t + dt) dt k3 p
      { t := s.t + dt
        x1 := s.x1 + (k1.dx1 + 2 * k2.dx1 + 2 * k3.dx1 + k4.dx1) / 6 * dt
        v1 := s.v1 + (k1.dv1 + 2 * k2.dv1 + 2 * k3.dv1 + k4.dv1) / 6 * dt
        x2 := s.x2 + (k1.dx2 + 2 * k2.dx2 + 2 * k3.dx2 + k4.dx2) / 6 * dt
        v2 := s.v2 + (k1.dv2 + 2 * k2.dv2 + 2 * k3.dv2 + k4.dv2) / 6 * dt } := by
  have h2 : dt * (1 / 2) = dt / 2 := by ring
  simp only [integrateRK4, evaluate, h2, SimulationState.mk.injEq]
  refine ⟨by ring, by ring, by ring, by ring, by ring⟩

/-- Claim C3: the derivative evaluator forms the trial state
x1 + d.dx1 * dt_offset (and similarly for the other components) and
returns dx1 = trial v1, dv1 = F1 / m1, dx2 = trial v2, dv2 = F2 / m2,
with F1 the sum of the restoring, damping, coupling and drive terms and
F2 the negated coupling contribution. -/
theorem evaluate_spec_formula (s : SimulationState) (t dtoff : ℝ)
    (d : Derivative) (p : SystemParams)
    (hm1 : 0 < p.m1) (hm2 : 0 < p.m2) :
    evaluate s t dtoff d p =
      { dx1 := s.v1 + d.dv1 * dtoff
        dv1 := (-p.k1 * (s.x1 + d.dx1 * dtoff)
                - p.b1 * (s.v1 + d.dv1 * dtoff)
                + p.k2 * ((s.x2 + d.dx2 * dtoff) - (s.x1 + d.dx1 * dtoff))
                + p.b2 * ((s.v2 + d.dv2 * dtoff) - (s.v1 + d.dv1 * dtoff))
                + force t p.forceAmplitude p.forceFrequency) / p.m1
        dx2 := s.v2 + d.dv2 * dtoff
        dv2 := -(p.k2 * ((s.x2 + d.dx2 * dtoff) - (s.x1 + d.dx1 * dtoff))
                 + p.b2 * ((s.v2 + d.dv2 * dtoff) - (s.v1 + d.dv1 * dtoff)))
               / p.m2 } := by
  simp only [evaluate, force, Derivative.mk.injEq]
  refine ⟨by ring, by ring, by ring, by ring⟩

/-- Witness for claim C3 at a concrete input. -/
theorem evaluate_spec_formula_witness :
    evaluate sProbe 0 1 dProbe pUnit =
      { dx1 := sProbe.v1 + dProbe.dv1 * 1
        dv1 := (-pUnit.k1 * (sProbe.x1 + dProbe.dx1 * 1)
                - pUnit.b1 * (sProbe.v1 + dProbe.dv1 * 1)
                + pUnit.k2 * ((sProbe.x2 + dProbe.dx2 * 1)
                  - (sProbe.x1 + dProbe.dx1 * 1))
                + pUnit.b2 * ((sProbe.v2 + dProbe.dv2 * 1)
                  - (sProbe.v1 + dProbe.dv1 * 1))
                + force 0 pUnit.forceAmplitude pUnit.forceFrequency) / pUnit.m1
        dx2 := sProbe.v2 + dProbe.dv2 * 1
        dv2 := -(pUnit.k2 * ((sProbe.x2 + dProbe.dx2 * 1)
                   - (sProbe.x1 + dProbe.dx1 * 1))
                 + pUnit.b2 * ((sProbe.v2 + dProbe.dv2 * 1)
                   - (sProbe.v1 + dProbe.dv1 * 1)))
               / pUnit.m2 } :=
  evaluate_spec_formula sProbe 0 1 dProbe pUnit (by norm_num [pUnit])
    (by norm_num [pUnit])

/-- Claim C6: the drive force equals amplitude * sin(2 pi frequency t), a
pure total function of its three inputs; changing the amplitude changes
only the dv1 output of the evaluator (by the drive force over m1) and
never dx1, dx2 or dv2: the drive acts on body 1 only. -/
theorem force_drive_only_body1 (t A f : ℝ) (s : SimulationState)
    (off : ℝ) (d : Derivative) (p : SystemParams) :
    force t A f = A * Real.sin (2 * Real.pi * f * t) ∧
    (evaluate s t off d { p with forceAmplitude := A, forceFrequency := f }).dx1 =
      (evaluate s t off d { p with forceAmplitude := 0, forceFrequency := f }).dx1 ∧
    (evaluate s t off d { p with forceAmplitude := A, forceFrequency := f }).dx2 =
      (evaluate s t off d { p with forceAmplitude := 0, forceFrequency := f }).dx2 ∧
    (evaluate s t off d { p with forceAmplitude := A, forceFrequency := f }).dv2 =
      (evaluate s t off d { p with forceAmplitude := 0, forceFrequency := f }).dv2 ∧
    (evaluate s t off d { p with forceAmplitude := A, forceFrequency := f }).dv1 =
      (evaluate s t off d { p with forceAmplitude := 0, forceFrequency := f }).dv1 +
        force t A f / p.m1 := by
  refine ⟨rfl, ?_, ?_, ?_, ?_⟩ <;>
    simp only [evaluate, force] <;> ring

/-- Claim C8: in every single evaluator call the coupling contribution
k2 (x2 trial - x1 trial) + b2 (v2 trial - v1 trial) to the force on
body 1 is exactly the negation of the net force on body 2 (which is
m2 times the returned dv2), and the dv2 output is unchanged by the
drive parameters, the body-1 stiffness k1 and the body-1 damping b1. -/
theorem coupling_third_law (s : SimulationState) (t off : ℝ)
    (d : Derivative) (p : SystemParams) (k1' b1' A f : ℝ)
    (hm1 : 0 < p.m1) (hm2 : 0 < p.m2) :
    p.m2 * (evaluate s t off d p).dv2 =
      -(p.k2 * ((s.x2 + d.dx2 * off) - (s.x1 + d.dx1 * off))
        + p.b2 * ((s.v2 + d.dv2 * off) - (s.v1 + d.dv1 * off))) ∧
    (evaluate s t off d
        { p with k1 := k1', b1 := b1', forceAmplitude := A,
                 forceFrequency := f }).dv2 =
      (evaluate s t off d p).dv2 := by
  constructor
  · simp only [evaluate]
    field_simp
    ring
  · simp only [evaluate]

/-- Witness for claim C8 at a concrete input. -/
theorem coupling_third_law_witness :
    pUnit.m2 * (evaluate sProbe 0 1 dProbe pUnit).dv2 =
      -(pUnit.k2 * ((sProbe.x2 + dProbe.dx2 * 1) - (sProbe.x1 + dProbe.dx1 * 1))
        + pUnit.b2 * ((sProbe.v2 + dProbe.dv2 * 1)
          - (sProbe.v1 + dProbe.dv1 * 1))) ∧
    (evaluate sProbe 0 1 dProbe
        { pUnit with k1 := 7, b1 := 8, forceAmplitude := 9,
                     forceFrequency := 10 }).dv2 =
      (evaluate sProbe 0 1 dProbe pUnit).dv2 :=
  coupling_third_law sProbe 0 1 dProbe pUnit 7 8 9 10
    (by norm_num [pUnit]) (by norm_num [pUnit])

/-- A parameter set with the coupling removed (k2 = 0, b2 = 0), used to
instantiate the decoupling theorem. -/
def pDecoupled : SystemParams := ⟨1, 1, 1, 1, 0, 0, 1, 1⟩

/-- A state agreeing with sProbe on t, x1, v1 and differing in x2, v2. -/
def sProbeAlt : SimulationState := ⟨0, 1, 2, 9, 11⟩

/-- Claim C10: with the coupling removed (k2 = 0 and b2 = 0) the
evaluator always returns dv2 = 0, one integrator step leaves v2
unchanged and advances x2 by exactly v2 * dt, and the body-1 outputs do
not depend on x2 and v2: two input states agreeing on t, x1, v1 yield
the same returned x1 and v1. -/
theorem decoupled_body2_noninterference (s s' : SimulationState)
    (dt t off : ℝ) (d : Derivative) (p : SystemParams)
    (hk2 : p.k2 = 0) (hb2 : p.b2 = 0) (hm1 : 0 < p.m1) (hm2 : 0 < p.m2)
    (ht : s'.t = s.t) (hx1 : s'.x1 = s.x1) (hv1 : s'.v1 = s.v1) :
    (evaluate s t off d p).dv2 = 0 ∧
    (integrateRK4 s dt p).v2 = s.v2 ∧
    (integrateRK4 s dt p).x2 = s.x2 + s.v2 * dt ∧
    (integrateRK4 s' dt p).x1 = (integrateRK4 s dt p).x1 ∧
    (integrateRK4 s' dt p).v1 = (integrateRK4 s dt p).v1 := by
  refine ⟨?_, ?_, ?_, ?_, ?_⟩ <;>
    simp only [integrateRK4, evaluate, hk2, hb2, ht, hx1, hv1] <;> ring

/-- Witness for claim C10 at a concrete input. -/
theorem decoupled_body2_noninterference_witness :
    (evaluate sProbe 0 1 dProbe pDecoupled).dv2 = 0 ∧
    (integrateRK4 sProbe 1 pDecoupled).v2 = sProbe.v2 ∧
    (integrateRK4 sProbe 1 pDecoupled).x2 = sProbe.x2 + sProbe.v2 * 1 ∧
    (integrateRK4 sProbeAlt 1 pDecoupled).x1 =
      (integrateRK4 sProbe 1 pDecoupled).x1 ∧
    (integrateRK4 sProbeAlt 1 pDecoupled).v1 =
      (integrateRK4 sProbe 1 pDecoupled).v1 :=
  decoupled_body2_noninterference sProbe sProbeAlt 1 0 1 dProbe pDecoupled
    (by norm_num [pDecoupled]) (by norm_num [pDecoupled])
    (by norm_num [pDecoupled]) (by norm_num [pDecoupled])
    (by norm_num [sProbe, sProbeAlt]) (by norm_num [sProbe, sProbeAlt])
    (by norm_num [sProbe, sProbeAlt])

/-- A parameter set at rest: zero drive amplitude, positive masses. -/
def pRest : SystemParams := ⟨1, 1, 0, 1, 1, 0, 0, 1⟩

/-- Counterexample to claim C7 as stated: one step from the zero state
does not return the same state, because the time field advances. -/
theorem zero_state_not_fixed_point :
    integrateRK4 zeroState 1 pRest ≠ zeroState := by
  intro h
  have ht := congrArg SimulationState.t h
  simp only [integrateRK4, evaluate, zeroState, pRest] at ht
  norm_num at ht

/-- Claim C7 as amended: from the zero state with zero drive amplitude,
a step with any dt and any parameters with positive masses returns the
state whose positions and velocities are all zero and whose time is dt:
the spatial equilibrium is invariant, while time advances by dt. -/
theorem equilibrium_invariant_up_to_time (dt : ℝ) (p : SystemParams)
    (hdt : 0 < dt) (hA : p.forceAmplitude = 0)
    (hm1 : 0 < p.m1) (hm2 : 0 < p.m2) :
    integrateRK4 zeroState dt p = ⟨dt, 0, 0, 0, 0⟩ := by
  simp only [integrateRK4, evaluate, zeroState, hA,
    SimulationState.mk.injEq]
  refine ⟨by ring, by ring, by ring, by ring, by ring⟩

/-- Witness for the amended claim C7 at a concrete input. -/
theorem equilibrium_invariant_up_to_time_witness :
    integrateRK4 zeroState 1 pRest = ⟨1, 0, 0, 0, 0⟩ :=
  equilibrium_invariant_up_to_time 1 pRest (by norm_num)
    (by norm_num [pRest]) (by norm_num [pRest]) (by norm_num [pRest])

/-- The default parameter set of the application (constants.ts). -/
def pDefault : SystemParams := ⟨50, 2000, 10, 5, 200, 15, 50, 1⟩

/-- The default parameter set with the building mass set to zero. -/
def pM1Zero : SystemParams := ⟨0, 2000, 10, 5, 200, 15, 50, 1⟩

/-- Claim C1 against the code: integrateRK4 performs no mass validation;
called with m1 = 0 and all other parameters at their defaults it does
not fail but returns a state with the time advanced (in the IEEE
arithmetic of the source this state carries non-finite components,
since the evaluator divides by m1 = 0). -/
theorem integrateRK4_no_mass_validation :
    (integrateRK4 zeroState (1 / 100) pM1Zero).t = 1 / 100 := by
  simp only [integrateRK4, zeroState]
  norm_num

/-- Claim C4 against the code: integrateRK4 performs no timestep
validation; called with the non-positive dt = -1 and the default
parameters it does not fail but returns a state with t = -1. -/
theorem integrateRK4_no_timestep_validation :
    (integrateRK4 zeroState (-1) pDefault).t = -1 := by
  simp only [integrateRK4, zeroState]
  norm_num

/-- Claim C5 against the code: integrateRK4 returns a plain
SimulationState for every input, with the time always advanced by dt;
its result type carries no error alternative and no finiteness check is
performed. -/
theorem integrateRK4_always_returns_state (s : SimulationState)
    (dt : ℝ) (p : SystemParams) :
    (integrateRK4 s dt p).t = s.t + dt := by
  simp only [integrateRK4]

/-- An undamped, undriven parameter set with positive masses and
stiffnesses: m1 = m2 = 1, k1 = 3, k2 = 2, b1 = b2 = 0, zero drive
amplitude.  Its two modal frequencies are 1 and the square root of 6. -/
def pC9 : SystemParams := ⟨1, 3, 0, 1, 2, 0, 0, 1⟩

/-- The energy of a state is nonnegative whenever the masses and
stiffnesses are nonnegative. -/
theorem energy_nonneg (p : SystemParams) (s : SimulationState)
    (hm1 : 0 ≤ p.m1) (hk1 : 0 ≤ p.k1) (hm2 : 0 ≤ p.m2) (hk2 : 0 ≤ p.k2) :
    0 ≤ energy p s := by
  simp only [energy]
  nlinarith [mul_nonneg hm1 (sq_nonneg s.v1),
    mul_nonneg hk1 (sq_nonneg s.x1), mul_nonneg hm2 (sq_nonneg s.v2),
    mul_nonneg hk2 (sq_nonneg (s.x2 - s.x1))]

/-- First component of the stiffness operator of the embedded equations
of motion, the matrix product of the inverse mass matrix with the
stiffness matrix applied to a position or velocity pair; its negation at
the positions is the acceleration pair the evaluator computes when the
damping and the drive vanish. -/
def Sop1 (p : SystemParams) (y1 y2 : ℝ) : ℝ :=
  ((p.k1 + p.k2) * y1 - p.k2 * y2) / p.m1

/-- Second component of the stiffness operator. -/
def Sop2 (p : SystemParams) (y1 y2 : ℝ) : ℝ :=
  (p.k2 * y2 - p.k2 * y1) / p.m2

/-- The quadratic form of the symmetric matrix 8 M - dt^2 K, where M is
the mass matrix and K the stiffness matrix; it is positive semidefinite
exactly on the RK4 stability region. -/
def quadW1 (p : SystemParams) (h u1 u2 : ℝ) : ℝ :=
  (8 * p.m1 - h ^ 2 * (p.k1 + p.k2)) * u1 ^ 2 +
    2 * (h ^ 2 * p.k2) * u1 * u2 +
    (8 * p.m2 - h ^ 2 * p.k2) * u2 ^ 2

/-- The quadratic form of the symmetric matrix
m1 m2 (8 K - dt^2 K M^(-1) K), the mass-cleared second stability form. -/
def quadW2 (p : SystemParams) (h w1 w2 : ℝ) : ℝ :=
  (8 * (p.k1 + p.k2) * (p.m1 * p.m2) -
      h ^ 2 * (p.m2 * (p.k1 + p.k2) ^ 2 + p.m1 * p.k2 ^ 2)) * w1 ^ 2 +
    2 * (h ^ 2 * (p.m2 * p.k2 * (p.k1 + p.k2) + p.m1 * p.k2 ^ 2) -
      8 * p.k2 * (p.m1 * p.m2)) * w1 * w2 +
    (8 * p.k2 * (p.m1 * p.m2) - h ^ 2 * p.k2 ^ 2 * (p.m1 + p.m2)) * w2 ^ 2

/-- A symmetric 2 by 2 quadratic form with nonnegative diagonal and
nonnegative determinant is nonnegative. -/
theorem psd2_nonneg (a b c u v : ℝ) (ha : 0 ≤ a) (hc : 0 ≤ c)
    (hd : b ^ 2 ≤ a * c) :
    0 ≤ a * u ^ 2 + 2 * b * u * v + c * v ^ 2 := by
  rcases ha.eq_or_lt with h0 | hpos
  · have hb : b = 0 := by nlinarith [sq_nonneg b]
    rw [← h0, hb]
    nlinarith [mul_nonneg hc (sq_nonneg v)]
  · have key : 0 ≤ (a * u + b * v) ^ 2 + (a * c - b ^ 2) * v ^ 2 :=
      add_nonneg (sq_nonneg _)
        (mul_nonneg (by linarith) (sq_nonneg v))
    have expand : a * (a * u ^ 2 + 2 * b * u * v + c * v ^ 2) =
        (a * u + b * v) ^ 2 + (a * c - b ^ 2) * v ^ 2 := by ring
    nlinarith [key, expand, hpos]

/-- On the stability region the first stability form is nonnegative. -/
theorem quadW1_nonneg (p : SystemParams) (h u1 u2 : ℝ)
    (hm1 : 0 < p.m1) (hm2 : 0 < p.m2) (hk1 : 0 < p.k1) (hk2 : 0 < p.k2)
    (hdt : h ^ 2 * (p.m2 * (p.k1 + p.k2) + p.m1 * p.k2) ≤
      8 * (p.m1 * p.m2)) :
    0 ≤ quadW1 p h u1 u2 := by
  have hq : (0 : ℝ) ≤ h ^ 2 := sq_nonneg h
  have ha : 0 ≤ 8 * p.m1 - h ^ 2 * (p.k1 + p.k2) := by
    nlinarith [mul_nonneg hq (mul_pos hm1 hk2).le]
  have hc : 0 ≤ 8 * p.m2 - h ^ 2 * p.k2 := by
    nlinarith [mul_nonneg hq (mul_pos hm2 (add_pos hk1 hk2)).le]
  have h4 : (0 : ℝ) ≤ h ^ 2 * h ^ 2 * (p.k1 * p.k2) :=
    mul_nonneg (mul_nonneg hq hq) (mul_pos hk1 hk2).le
  have hd : (h ^ 2 * p.k2) ^ 2 ≤
      (8 * p.m1 - h ^ 2 * (p.k1 + p.k2)) * (8 * p.m2 - h ^ 2 * p.k2) := by
    nlinarith [hdt, h4]
  simpa [quadW1] using
    psd2_nonneg (8 * p.m1 - h ^ 2 * (p.k1 + p.k2)) (h ^ 2 * p.k2)
      (8 * p.m2 - h ^ 2 * p.k2) u1 u2 ha hc hd

/-- On the stability region the second stability form is nonnegative. -/
theorem quadW2_nonneg (p : SystemParams) (h w1 w2 : ℝ)
    (hm1 : 0 < p.m1) (hm2 : 0 < p.m2) (hk1 : 0 < p.k1) (hk2 : 0 < p.k2)
    (hdt : h ^ 2 * (p.m2 * (p.k1 + p.k2) + p.m1 * p.k2) ≤
      8 * (p.m1 * p.m2)) :
    0 ≤ quadW2 p h w1 w2 := by
  have hq : (0 : ℝ) ≤ h ^ 2 := sq_nonneg h
  have ha : 0 ≤ 8 * (p.k1 + p.k2) * (p.m1 * p.m2) -
      h ^ 2 * (p.m2 * (p.k1 + p.k2) ^ 2 + p.m1 * p.k2 ^ 2) := by
    nlinarith [mul_le_mul_of_nonneg_left hdt (add_pos hk1 hk2).le,
      mul_nonneg (mul_nonneg hq hm1.le) (mul_pos hk1 hk2).le]
  have hc : 0 ≤ 8 * p.k2 * (p.m1 * p.m2) -
      h ^ 2 * p.k2 ^ 2 * (p.m1 + p.m2) := by
    nlinarith [mul_le_mul_of_nonneg_left hdt hk2.le,
      mul_nonneg (mul_nonneg hq hm2.le) (mul_pos hk1 hk2).le]
  have hbracket : 0 ≤ 64 * (p.m1 * p.m2) -
      8 * (h ^ 2 * (p.m2 * (p.k1 + p.k2) + p.m1 * p.k2)) +
      h ^ 2 * h ^ 2 * (p.k1 * p.k2) := by
    nlinarith [hdt, mul_nonneg (mul_nonneg hq hq) (mul_pos hk1 hk2).le]
  have hdet : (8 * (p.k1 + p.k2) * (p.m1 * p.m2) -
        h ^ 2 * (p.m2 * (p.k1 + p.k2) ^ 2 + p.m1 * p.k2 ^ 2)) *
        (8 * p.k2 * (p.m1 * p.m2) - h ^ 2 * p.k2 ^ 2 * (p.m1 + p.m2)) -
        (h ^ 2 * (p.m2 * p.k2 * (p.k1 + p.k2) + p.m1 * p.k2 ^ 2) -
          8 * p.k2 * (p.m1 * p.m2)) ^ 2 =
      p.k1 * p.k2 * (p.m1 * p.m2) *
        (64 * (p.m1 * p.m2) -
          8 * (h ^ 2 * (p.m2 * (p.k1 + p.k2) + p.m1 * p.k2)) +
          h ^ 2 * h ^ 2 * (p.k1 * p.k2)) := by
    ring
  have hd : (h ^ 2 * (p.m2 * p.k2 * (p.k1 + p.k2) + p.m1 * p.k2 ^ 2) -
        8 * p.k2 * (p.m1 * p.m2)) ^ 2 ≤
      (8 * (p.k1 + p.k2) * (p.m1 * p.m2) -
        h ^ 2 * (p.m2 * (p.k1 + p.k2) ^ 2 + p.m1 * p.k2 ^ 2)) *
        (8 * p.k2 * (p.m1 * p.m2) - h ^ 2 * p.k2 ^ 2 * (p.m1 + p.m2)) := by
    nlinarith [hdet, mul_nonneg (mul_nonneg (mul_pos hk1 hk2).le
      (mul_pos hm1 hm2).le) hbracket]
  simpa [quadW2] using
    psd2_nonneg _ _ _ w1 w2 ha hc hd

set_option maxHeartbeats 4000000 in
/-- The exact per-step energy balance of the integrator on any undamped,
undriven parameter set: the energy lost in one step of size dt is
dt^6 / 1152 times the sum of the first stability form at the twice
stiffness-iterated positions and the mass-cleared second stability form
at the stiffness-iterated velocities. -/
theorem energy_step_identity (p : SystemParams) (dt : ℝ)
    (s : SimulationState) (hb1 : p.b1 = 0) (hb2 : p.b2 = 0)
    (hA : p.forceAmplitude = 0) (hm1 : p.m1 ≠ 0) (hm2 : p.m2 ≠ 0) :
    energy p s - energy p (integrateRK4 s dt p) =
      dt ^ 6 / 1152 *
        (quadW1 p dt (Sop1 p (Sop1 p s.x1 s.x2) (Sop2 p s.x1 s.x2))
            (Sop2 p (Sop1 p s.x1 s.x2) (Sop2 p s.x1 s.x2)) +
          quadW2 p dt (Sop1 p s.v1 s.v2) (Sop2 p s.v1 s.v2) /
            (p.m1 * p.m2)) := by
  simp only [integrateRK4, evaluate, energy, quadW1, quadW2, Sop1, Sop2,
    hb1, hb2, hA]
  field_simp
  ring

/-- One step on the stability region does not increase the energy. -/
theorem energy_step_le (p : SystemParams) (dt : ℝ) (s : SimulationState)
    (hb1 : p.b1 = 0) (hb2 : p.b2 = 0) (hA : p.forceAmplitude = 0)
    (hm1 : 0 < p.m1) (hm2 : 0 < p.m2) (hk1 : 0 < p.k1) (hk2 : 0 < p.k2)
    (hdt : dt ^ 2 * (p.m2 * (p.k1 + p.k2) + p.m1 * p.k2) ≤
      8 * (p.m1 * p.m2)) :
    energy p (integrateRK4 s dt p) ≤ energy p s := by
  have hid := energy_step_identity p dt s hb1 hb2 hA hm1.ne' hm2.ne'
  have h1 := quadW1_nonneg p dt
    (Sop1 p (Sop1 p s.x1 s.x2) (Sop2 p s.x1 s.x2))
    (Sop2 p (Sop1 p s.x1 s.x2) (Sop2 p s.x1 s.x2))
    hm1 hm2 hk1 hk2 hdt
  have h2 := quadW2_nonneg p dt (Sop1 p s.v1 s.v2) (Sop2 p s.v1 s.v2)
    hm1 hm2 hk1 hk2 hdt
  have h2' : 0 ≤ quadW2 p dt (Sop1 p s.v1 s.v2) (Sop2 p s.v1 s.v2) /
      (p.m1 * p.m2) := div_nonneg h2 (mul_pos hm1 hm2).le
  have h6 : (0 : ℝ) ≤ dt ^ 6 / 1152 := by positivity
  nlinarith [hid, mul_nonneg h6 (add_nonneg h1 h2')]

/-- Iterated steps on the stability region never increase the energy. -/
theorem energy_iterate_le (p : SystemParams) (dt : ℝ)
    (s : SimulationState) (n : ℕ)
    (hb1 : p.b1 = 0) (hb2 : p.b2 = 0) (hA : p.forceAmplitude = 0)
    (hm1 : 0 < p.m1) (hm2 : 0 < p.m2) (hk1 : 0 < p.k1) (hk2 : 0 < p.k2)
    (hdt : dt ^ 2 * (p.m2 * (p.k1 + p.k2) + p.m1 * p.k2) ≤
      8 * (p.m1 * p.m2)) :
    energy p ((fun σ => integrateRK4 σ dt p)^[n] s) ≤ energy p s := by
  induction n with
  | zero => simp
  | succ n ih =>
    rw [Function.iterate_succ_apply']
    exact le_trans
      (energy_step_le p dt _ hb1 hb2 hA hm1 hm2 hk1 hk2 hdt) ih

/-- Claim C9 as amended: for every parameter set with b1 = b2 = 0,
forceAmplitude = 0 and arbitrary positive m1, m2, k1, k2, and every step
size dt within the RK4 stability bound
dt^2 (m2 (k1 + k2) + m1 k2) <= 8 m1 m2, the total mechanical energy of
the state produced by any number of steps stays between 0 and its
initial value — no drift accumulates — and the per-step energy change is
the exact truncation quantity of energy_step_identity, proportional to
dt^6 and hence O(dt^4) per step. -/
theorem energy_bounded_small_dt (p : SystemParams) (dt : ℝ)
    (s : SimulationState) (n : ℕ)
    (hb1 : p.b1 = 0) (hb2 : p.b2 = 0) (hA : p.forceAmplitude = 0)
    (hm1 : 0 < p.m1) (hm2 : 0 < p.m2) (hk1 : 0 < p.k1) (hk2 : 0 < p.k2)
    (hdt : dt ^ 2 * (p.m2 * (p.k1 + p.k2) + p.m1 * p.k2) ≤
      8 * (p.m1 * p.m2)) :
    0 ≤ energy p ((fun σ => integrateRK4 σ dt p)^[n] s) ∧
    energy p ((fun σ => integrateRK4 σ dt p)^[n] s) ≤ energy p s ∧
    energy p s - energy p (integrateRK4 s dt p) =
      dt ^ 6 / 1152 *
        (quadW1 p dt (Sop1 p (Sop1 p s.x1 s.x2) (Sop2 p s.x1 s.x2))
            (Sop2 p (Sop1 p s.x1 s.x2) (Sop2 p s.x1 s.x2)) +
          quadW2 p dt (Sop1 p s.v1 s.v2) (Sop2 p s.v1 s.v2) /
            (p.m1 * p.m2)) :=
  ⟨energy_nonneg p _ hm1.le hk1.le hm2.le hk2.le,
    energy_iterate_le p dt s n hb1 hb2 hA hm1 hm2 hk1 hk2 hdt,
    energy_step_identity p dt s hb1 hb2 hA hm1.ne' hm2.ne'⟩

/-- Witness for the amended claim C9 at a concrete input. -/
theorem energy_bounded_small_dt_witness :
    0 ≤ energy pC9 ((fun σ => integrateRK4 σ (1 / 100) pC9)^[3] sProbe) ∧
    energy pC9 ((fun σ => integrateRK4 σ (1 / 100) pC9)^[3] sProbe) ≤
      energy pC9 sProbe ∧
    energy pC9 sProbe -
        energy pC9 (integrateRK4 sProbe (1 / 100) pC9) =
      (1 / 100 : ℝ) ^ 6 / 1152 *
        (quadW1 pC9 (1 / 100)
            (Sop1 pC9 (Sop1 pC9 sProbe.x1 sProbe.x2)
              (Sop2 pC9 sProbe.x1 sProbe.x2))
            (Sop2 pC9 (Sop1 pC9 sProbe.x1 sProbe.x2)
              (Sop2 pC9 sProbe.x1 sProbe.x2)) +
          quadW2 pC9 (1 / 100) (Sop1 pC9 sProbe.v1 sProbe.v2)
              (Sop2 pC9 sProbe.v1 sProbe.v2) /
            (pC9.m1 * pC9.m2)) :=
  energy_bounded_small_dt pC9 (1 / 100) sProbe 3
    (by norm_num [pC9]) (by norm_num [pC9]) (by norm_num [pC9])
    (by norm_num [pC9]) (by norm_num [pC9]) (by norm_num [pC9])
    (by norm_num [pC9]) (by norm_num [pC9])

/-- A state lying in the slow mode of pC9: x2 = 2 x1 and v2 = 2 v1. -/
def sMode1 : SimulationState := ⟨0, 1, 0, 2, 0⟩

/-- With step size 3, the integrator on pC9 preserves the slow modal
subspace x2 = 2 x1, v2 = 2 v1 and multiplies the energy of every state
in it by 145 / 64 at each step. -/
theorem mode1_step (s : SimulationState) (hx : s.x2 = 2 * s.x1)
    (hv : s.v2 = 2 * s.v1) :
    (integrateRK4 s 3 pC9).x2 = 2 * (integrateRK4 s 3 pC9).x1 ∧
    (integrateRK4 s 3 pC9).v2 = 2 * (integrateRK4 s 3 pC9).v1 ∧
    energy pC9 (integrateRK4 s 3 pC9) = 145 / 64 * energy pC9 s := by
  refine ⟨?_, ?_, ?_⟩ <;>
    simp only [integrateRK4, evaluate, energy, pC9, hx, hv] <;> ring

/-- The closed form of the energy of the iterates of sMode1 under steps
of size 3 on pC9. -/
theorem mode1_iterate (n : ℕ) :
    ((fun σ => integrateRK4 σ 3 pC9)^[n] sMode1).x2 =
      2 * ((fun σ => integrateRK4 σ 3 pC9)^[n] sMode1).x1 ∧
    ((fun σ => integrateRK4 σ 3 pC9)^[n] sMode1).v2 =
      2 * ((fun σ => integrateRK4 σ 3 pC9)^[n] sMode1).v1 ∧
    energy pC9 ((fun σ => integrateRK4 σ 3 pC9)^[n] sMode1) =
      (145 / 64) ^ n * (5 / 2) := by
  induction n with
  | zero =>
    refine ⟨by norm_num [sMode1], by norm_num [sMode1], ?_⟩
    norm_num [energy, pC9, sMode1]
  | succ n ih =>
    rw [Function.iterate_succ_apply']
    obtain ⟨ihx, ihv, ihE⟩ := ih
    obtain ⟨hx, hv, hE⟩ := mode1_step _ ihx ihv
    refine ⟨hx, hv, ?_⟩
    rw [hE, ihE]
    ring

/-- Counterexample to claim C9 as stated: on the undamped, undriven
system pC9 (all masses and stiffnesses positive, b1 = b2 = 0, zero
amplitude), repeated steps of size 3 from the state sMode1 of energy
5 / 2 drive the energy above 10 to the 9th within 2000 steps: the
energy does not stay within a bounded tolerance of its initial value
for every step size. -/
theorem energy_unbounded_growth :
    energy pC9 sMode1 = 5 / 2 ∧
    energy pC9 ((fun σ => integrateRK4 σ 3 pC9)^[2000] sMode1) -
      energy pC9 sMode1 > 10 ^ 9 := by
  have hE0 : energy pC9 sMode1 = 5 / 2 := by norm_num [energy, pC9, sMode1]
  refine ⟨hE0, ?_⟩
  rw [(mode1_iterate 2000).2.2, hE0]
  have h1 : (2 : ℝ) ^ 2000 ≤ (145 / 64) ^ 2000 :=
    pow_le_pow_left (by norm_num) (by norm_num) 2000
  have h2 : (2 : ℝ) ^ 40 ≤ (2 : ℝ) ^ 2000 :=
    pow_le_pow_right (by norm_num) (by norm_num)
  have h3 : (2 : ℝ) ^ 40 = 1099511627776 := by norm_num
  nlinarith [h1, h2, h3]

end

end TMD
